import Mathlib

/-!
Verification of the TikTok upload client (tiktok_uploader/tiktok.py and
music_video_bot.py): chunk partitioning, checksum manifest, schedule and
cookie validation, metadata truncation, chunk-upload retry policy and the
publish retry loop. Python strings are modelled as `List Char`, bytes as
`List Nat`, and the network environment as explicit lists of per-attempt
outcomes.
-/

namespace TiktokBot

/-- Chunk size constant of `upload_to_tiktok` (tiktok.py line 525). -/
def chunk_size : Nat := 5242880

/-- The chunk-partitioning loop of `upload_to_tiktok` (tiktok.py lines 527-530):
`i = 0; while i < file_size: chunks.append(video_content[i : i + chunk_size]); i += chunk_size`.
The slice `video_content[i : i + chunk_size]` is `(content.drop i).take chunk_size`. -/
def chunkLoop (content : List Nat) (i : Nat) : List (List Nat) :=
  if i < content.length then
    (content.drop i).take chunk_size :: chunkLoop content (i + chunk_size)
  else []
termination_by content.length - i
decreasing_by simp [chunk_size]; omega

/-- The chunk list of a file's content, as `upload_to_tiktok` builds it. -/
def chunks (content : List Nat) : List (List Nat) := chunkLoop content 0

/-- Helper recursion equivalent to `chunkLoop` (head-directed form used in proofs). -/
def chunksTake (l : List Nat) : List (List Nat) :=
  if l = [] then [] else l.take chunk_size :: chunksTake (l.drop chunk_size)
termination_by l.length
decreasing_by
  simp only [List.length_drop, chunk_size]
  have : l ≠ [] := by assumption
  have : 0 < l.length := List.length_pos.mpr this
  omega

/-- Python slice `s[:v]` for an arbitrary (possibly negative) stop `v`:
a negative stop counts from the end, and out-of-range stops clamp. -/
def pyTakeTo (s : List Char) (v : Int) : List Char :=
  let e : Int := if v < 0 then (s.length : Int) + v else v
  s.take e.toNat

/-- The finalize-manifest expression of `upload_video` (tiktok.py line 146):
`",".join([f"{i + 1}:{crcs[i]}" for i in range(len(crcs))])`. -/
def finishManifest (crcs : List Nat) : String :=
  String.intercalate ","
    ((List.range crcs.length).map (fun i => toString (i + 1) ++ ":" ++ toString (crcs.getD i 0)))

/-- One chunk-upload attempt's outcome as seen by the retry loop of
`upload_to_tiktok` (tiktok.py lines 551-586): an HTTP response with a status
code, an `SSLError`/`ConnectionError`, or another `RequestException`. -/
inductive AttemptResult
| status (code : Nat)
| connErr
| reqErr
deriving DecidableEq

/-- How the per-chunk retry loop ends: the chunk uploaded (`success`), the
whole function returns `False` (`failReturn`, the non-200 exhaustion path),
the caught exception is re-raised (`failRaise`, the transport exhaustion
path), or the modelled outcome list ran out (`ranDry`). -/
inductive ChunkResult
| success
| failReturn
| failRaise
| ranDry
deriving DecidableEq

structure ChunkLoopOut where
  result : ChunkResult
  attempts : Nat
  sleeps : List Nat
deriving DecidableEq

/-- The per-chunk retry loop of `upload_to_tiktok` (tiktok.py lines 549-586):
`retry_count = 0; uploaded = False; while retry_count < max_retries and not uploaded:`
with `max_retries = 5`. A non-200 response retries while `retry_count < max_retries - 1`
(else returns `False`); `SSLError`/`ConnectionError`/`RequestException` bump
`retry_count` and retry while `retry_count < max_retries` (else re-raise).
Each retry sleeps `min(2 ** retry_count, 30)` with the already-incremented
counter. One outcome of `env` is consumed per POST attempt. -/
def chunkRetryLoop (rc : Nat) : List AttemptResult → ChunkLoopOut
  | [] => if rc < 5 then ⟨.ranDry, 0, []⟩ else ⟨.failReturn, 0, []⟩
  | o :: rest =>
    if rc < 5 then
      match o with
      | .status code =>
        if code = 200 then ⟨.success, 1, []⟩
        else if rc < 4 then
          let out := chunkRetryLoop (rc + 1) rest
          ⟨out.result, out.attempts + 1, min (2 ^ (rc + 1)) 30 :: out.sleeps⟩
        else ⟨.failReturn, 1, []⟩
      | .connErr =>
        if rc + 1 < 5 then
          let out := chunkRetryLoop (rc + 1) rest
          ⟨out.result, out.attempts + 1, min (2 ^ (rc + 1)) 30 :: out.sleeps⟩
        else ⟨.failRaise, 1, []⟩
      | .reqErr =>
        if rc + 1 < 5 then
          let out := chunkRetryLoop (rc + 1) rest
          ⟨out.result, out.attempts + 1, min (2 ^ (rc + 1)) 30 :: out.sleeps⟩
        else ⟨.failRaise, 1, []⟩
    else ⟨.failReturn, 0, []⟩

structure ChunksOut where
  result : ChunkResult
  crcs : List Nat
deriving DecidableEq

/-- The per-file chunk loop of `upload_to_tiktok` (tiktok.py lines 536-590):
for each chunk in order, append its CRC32 to `crcs`, then run the retry loop;
any failing chunk aborts the whole upload. `crc` stands for `bot_utils.crc32`
(its module is not part of the staged sources; its value is opaque here),
`envs` gives each chunk its list of attempt outcomes. -/
def uploadChunksGo (crc : List Nat → Nat) :
    List (List Nat) → List (List AttemptResult) → ChunksOut
  | [], _ => ⟨.success, []⟩
  | chunk :: rest, envs =>
    let c := crc chunk
    let out := chunkRetryLoop 0 (envs.headD [])
    match out.result with
    | .success =>
      let r := uploadChunksGo crc rest envs.tail
      ⟨r.result, c :: r.crcs⟩
    | res => ⟨res, [c]⟩

def uploadChunks (crc : List Nat → Nat) (envs : List (List AttemptResult))
    (chunkList : List (List Nat)) : ChunksOut :=
  uploadChunksGo crc chunkList envs

inductive JobResult
| ok
| returnedFalse
| raised
| ranDry
deriving DecidableEq

/-- The job-level consequence of the chunk upload in `upload_video`
(tiktok.py lines 135-155): only a successful `upload_to_tiktok` reaches the
finalize (`phase=finish`) POST; a `False` return aborts with `return False`
(line 138), and a re-raised transport exception propagates. The `Bool` is
whether the finalize request was issued. -/
def uploadJob (crc : List Nat → Nat) (envs : List (List AttemptResult))
    (chunkList : List (List Nat)) : JobResult × Bool :=
  match (uploadChunks crc envs chunkList).result with
  | .success => (.ok, true)
  | .failReturn => (.returnedFalse, false)
  | .failRaise => (.raised, false)
  | .ranDry => (.ranDry, false)

/-- A cookie record as consumed by `upload_video` (name and value). -/
structure Cookie where
  name : List Char
  value : List Char

/-- `next((c["value"] for c in cookies if c["name"] == n), None)` (tiktok.py
lines 62-63): the value of the first cookie with the given name. -/
def findCookieValue (cookies : List Cookie) (n : List Char) : Option (List Char) :=
  (cookies.find? (fun c => c.name == n)).map (fun c => c.value)

inductive PrecheckResult
| exit (code : Nat)
| ret (b : Bool)
| proceed (session_id dc_id : List Char)
deriving DecidableEq

/-- The validation prefix of `upload_video` (tiktok.py lines 61-84), run
before the HTTP session is created (line 90) and hence before any network
call: missing or empty `sessionid` does `sys.exit(1)`; missing
`tt-target-idc` falls back to `"useast2a"`; a nonzero schedule offset outside
[900, 864000] returns `False`; a title over 2200 characters returns `False`;
a nonzero schedule offset with `visibility_type == 1` returns `False`. -/
def uploadVideoPrecheck (cookies : List Cookie) (title : List Char)
    (schedule_time : Int) (visibility_type : Int) : PrecheckResult :=
  let session_id := findCookieValue cookies ("sessionid".toList)
  let dc_id := findCookieValue cookies ("tt-target-idc".toList)
  match session_id with
  | none => .exit 1
  | some sid =>
    if sid = [] then .exit 1
    else
      let dc : List Char :=
        match dc_id with
        | none => "useast2a".toList
        | some d => if d = [] then "useast2a".toList else d
      if schedule_time ≠ 0 ∧ (schedule_time > 864000 ∨ schedule_time < 900) then .ret false
      else if title.length > 2200 then .ret false
      else if schedule_time ≠ 0 ∧ visibility_type = 1 then .ret false
      else .proceed sid dc

/-- `upload_video`'s entry: the validation prefix together with the number of
network calls issued before/at its end — `0` unless validation proceeds (the
first network call is the project-create POST of line 128, after the session
object of line 90). -/
def uploadVideoEntry (cookies : List Cookie) (title : List Char)
    (schedule_time : Int) (visibility_type : Int) : PrecheckResult × Nat :=
  match uploadVideoPrecheck cookies title schedule_time visibility_type with
  | .proceed sid dc => (.proceed sid dc, 1)
  | r => (r, 0)

/-- The schedule-attachment step of `upload_video` (tiktok.py lines 265-284):
for a truthy positive offset, in-range offsets attach `now + offset` and set
`actually_scheduled`; out-of-range ones are coerced to 0 and post immediately.
Returns (actually_scheduled, the possibly coerced offset, the attached
timestamp if any). -/
def attachSchedule (schedule_time now : Int) : Bool × Int × Option Int :=
  if schedule_time ≠ 0 ∧ schedule_time > 0 then
    if schedule_time ≥ 900 ∧ schedule_time ≤ 864000 then
      (true, schedule_time, some (schedule_time + now))
    else (false, 0, none)
  else (false, schedule_time, none)

/-- The truncation procedure of `generate_music_video`
(music_video_bot.py lines 163-191). The source's
`keywords = ""; excess -= len(keywords)` subtracts the length of the
already-emptied string (i.e. 0), and likewise for `description`, so
`excess` stays `full_len - 2200` throughout; it is inlined here.
Returns (title, description, keywords) after truncation. -/
def musicVideoTruncate (title description keywords : List Char) :
    List Char × List Char × List Char :=
  if title.length + 1 + description.length + 1 + keywords.length > 2200 then
    if keywords.length
        > (title.length + 1 + description.length + 1 + keywords.length - 2200) + 50 then
      (title, description,
        pyTakeTo keywords ((keywords.length : Int)
          - (title.length + 1 + description.length + 1 + keywords.length - 2200) - 50))
    else
      if description.length
          > (title.length + 1 + description.length + 1 + keywords.length - 2200) + 50 then
        (title,
          pyTakeTo description ((description.length : Int)
            - (title.length + 1 + description.length + 1 + keywords.length - 2200) - 50),
          [])
      else
        if title.length
            > (title.length + 1 + description.length + 1 + keywords.length - 2200) + 20 then
          (pyTakeTo title ((title.length : Int)
            - (title.length + 1 + description.length + 1 + keywords.length - 2200) - 20),
            [], [])
        else (title, [], [])
  else (title, description, keywords)

/-- The status-5 text repair of `upload_video` (tiktok.py lines 374-391):
truncate keywords first (10-char buffer), else empty keywords and truncate
description (10-char buffer); the title is never touched here. Returns
(description, keywords) after the repair. -/
def status5Truncate (title description keywords : List Char) :
    List Char × List Char :=
  if title.length + 1 + description.length + 1 + keywords.length > 2200 then
    if keywords.length > title.length + 1 + description.length + 1 + keywords.length - 2200 then
      (description,
        pyTakeTo keywords ((keywords.length : Int)
          - (title.length + 1 + description.length + 1 + keywords.length - 2200) - 10))
    else
      if description.length
          > title.length + 1 + description.length + 1 + keywords.length - 2200 then
        (pyTakeTo description ((description.length : Int)
          - (title.length + 1 + description.length + 1 + keywords.length - 2200) - 10),
          [])
      else (description, [])
  else (description, keywords)

/-- The URL handed to the signature oracle on each publish attempt
(tiktok.py line 311), as a function of the current `msToken`. -/
def sig_url (tok : List Char) : List Char :=
  ("https://www.tiktok.com/api/v1/web/project/post/?app_name=tiktok_web&channel=tiktok_web&device_platform=web&aid=1988&msToken=").toList ++ tok

/-- The URL the publish POST itself is sent to (tiktok.py line 343). -/
def post_url : List Char :=
  ("https://www.tiktok.com/tiktok/web/project/post/v1/").toList

/-- The path component of one of the client's URLs: drop the scheme and host
`https://www.tiktok.com` (22 characters) and keep everything before `?`. -/
def urlPath (u : List Char) : List Char :=
  (u.drop 22).takeWhile (fun c => c ≠ '?')

/-- What happens after the `msToken` is in hand on one publish attempt:
the signature subprocess fails (`signatures is None`), its output fails to
parse, `assertSuccess` on the publish POST fails, the publish response fails
to parse, or a parsed `status_code` comes back. -/
inductive TokenOutcome
| sigFail
| sigParseFail
| transportFail
| respParseFail
| status (code : Int)
deriving DecidableEq

/-- One publish attempt's environment outcome: no `msToken` even after the
refresh (tiktok.py lines 292-304), or a token plus what followed. -/
inductive PubOutcome
| msTokenMissing
| withToken (tok : List Char) (rest : TokenOutcome)
deriving DecidableEq

/-- The mutable job state of the publish loop: the three text fields and
whether `schedule_time` is in the payload / `actually_scheduled` is set. -/
structure PubState where
  title : List Char
  description : List Char
  keywords : List Char
  scheduleAttached : Bool
  actuallyScheduled : Bool

inductive PubResult
| published (scheduled : Bool)
| returnedFalse
| ranDry
deriving DecidableEq

structure PubOut where
  result : PubResult
  attempts : Nat
  sleeps : List Nat
  sigCalls : List (List Char)
  postCalls : List (List Char)

/-- Retry continuation: one more attempt happened, it slept 2 seconds
(`time.sleep(2)`) before continuing, and issued the given signature/publish
requests. -/
def pubCont (sigs posts : List (List Char)) (out : PubOut) : PubOut :=
  ⟨out.result, out.attempts + 1, 2 :: out.sleeps, sigs ++ out.sigCalls, posts ++ out.postCalls⟩

/-- The publish retry loop of `upload_video` (tiktok.py lines 286-457):
`attempt = 0; while attempt < max_attempts:` with `max_attempts = 3` and
`attempt += 1` at the top. Every failing path sleeps 2 seconds and retries
while attempts remain, else returns `False`. `status_code == 0` returns
`True`, reporting scheduled iff `actually_scheduled` and the payload still
has `schedule_time`. `status_code == 5` first truncates over-budget text and
retries; otherwise (or on the last attempt, falling through) it strips the
schedule field, but only on attempt 1. One outcome of `env` per attempt. -/
def publishLoopGo (attempt : Nat) (s : PubState) : List PubOutcome → PubOut
  | [] => if attempt < 3 then ⟨.ranDry, 0, [], [], []⟩ else ⟨.returnedFalse, 0, [], [], []⟩
  | o :: rest =>
    if attempt < 3 then
      match o with
      | .msTokenMissing =>
        if attempt + 1 < 3 then pubCont [] [] (publishLoopGo (attempt + 1) s rest)
        else ⟨.returnedFalse, 1, [], [], []⟩
      | .withToken tok r =>
        let sig := sig_url tok
        match r with
        | .sigFail =>
          if attempt + 1 < 3 then pubCont [sig] [] (publishLoopGo (attempt + 1) s rest)
          else ⟨.returnedFalse, 1, [], [sig], []⟩
        | .sigParseFail =>
          if attempt + 1 < 3 then pubCont [sig] [] (publishLoopGo (attempt + 1) s rest)
          else ⟨.returnedFalse, 1, [], [sig], []⟩
        | .transportFail =>
          if attempt + 1 < 3 then pubCont [sig] [post_url] (publishLoopGo (attempt + 1) s rest)
          else ⟨.returnedFalse, 1, [], [sig], [post_url]⟩
        | .respParseFail =>
          if attempt + 1 < 3 then pubCont [sig] [post_url] (publishLoopGo (attempt + 1) s rest)
          else ⟨.returnedFalse, 1, [], [sig], [post_url]⟩
        | .status code =>
          if code = 0 then
            ⟨.published (s.actuallyScheduled && s.scheduleAttached), 1, [], [sig], [post_url]⟩
          else if code = 5 then
            let full := s.title.length + 1 + s.description.length + 1 + s.keywords.length
            let s1 :=
              if 2200 < full then
                let dk := status5Truncate s.title s.description s.keywords
                { s with description := dk.1, keywords := dk.2 }
              else s
            if 2200 < full ∧ attempt + 1 < 3 then
              pubCont [sig] [post_url] (publishLoopGo (attempt + 1) s1 rest)
            else if s1.actuallyScheduled && s1.scheduleAttached then
              if attempt + 1 = 1 then
                let s2 := { s1 with scheduleAttached := false, actuallyScheduled := false }
                if attempt + 1 < 3 then
                  pubCont [sig] [post_url] (publishLoopGo (attempt + 1) s2 rest)
                else ⟨.returnedFalse, 1, [], [sig], [post_url]⟩
              else
                if attempt + 1 < 3 then
                  pubCont [sig] [post_url] (publishLoopGo (attempt + 1) s1 rest)
                else ⟨.returnedFalse, 1, [], [sig], [post_url]⟩
            else
              if attempt + 1 < 3 then
                pubCont [sig] [post_url] (publishLoopGo (attempt + 1) s1 rest)
              else ⟨.returnedFalse, 1, [], [sig], [post_url]⟩
          else
            if attempt + 1 < 3 then
              pubCont [sig] [post_url] (publishLoopGo (attempt + 1) s rest)
            else ⟨.returnedFalse, 1, [], [sig], [post_url]⟩
    else ⟨.returnedFalse, 0, [], [], []⟩

def publishLoop (s : PubState) (env : List PubOutcome) : PubOut :=
  publishLoopGo 0 s env

/-- A publish attempt outcome that does not succeed (anything but a parsed
`status_code == 0`). -/
def isPubFailure : PubOutcome → Bool
  | .withToken _ (.status 0) => false
  | _ => true

end TiktokBot

namespace TiktokBot

theorem chunksTake_nil : chunksTake [] = [] := by
  rw [chunksTake]
  simp

theorem chunksTake_cons (l : List Nat) (h : l ≠ []) :
    chunksTake l = l.take chunk_size :: chunksTake (l.drop chunk_size) := by
  rw [chunksTake]
  simp [h]

theorem chunksTake_flatten : ∀ (n : Nat) (l : List Nat), l.length ≤ n →
    (chunksTake l).flatten = l := by
  intro n
  induction n with
  | zero =>
    intro l h
    have : l = [] := by cases l <;> simp_all
    subst this
    simp [chunksTake_nil]
  | succ n ih =>
    intro l h
    by_cases hl : l = []
    · subst hl; simp [chunksTake_nil]
    · rw [chunksTake_cons l hl, List.flatten_cons]
      have hlen : 0 < l.length := List.length_pos.mpr hl
      have : (l.drop chunk_size).length ≤ n := by
        simp only [List.length_drop, chunk_size] at *
        omega
      rw [ih _ this, List.take_append_drop]

theorem chunksTake_length : ∀ (n : Nat) (l : List Nat), l.length ≤ n →
    (chunksTake l).length = (l.length + chunk_size - 1) / chunk_size := by
  intro n
  induction n with
  | zero =>
    intro l h
    have : l = [] := by cases l <;> simp_all
    subst this
    simp [chunksTake_nil, chunk_size]
  | succ n ih =>
    intro l h
    by_cases hl : l = []
    · subst hl; simp [chunksTake_nil, chunk_size]
    · rw [chunksTake_cons l hl]
      have hlen : 0 < l.length := List.length_pos.mpr hl
      have hd : (l.drop chunk_size).length ≤ n := by
        simp only [List.length_drop, chunk_size] at *
        omega
      rw [List.length_cons, ih _ hd]
      simp only [List.length_drop, chunk_size] at *
      omega

theorem chunksTake_mid : ∀ (n : Nat) (l : List Nat), l.length ≤ n →
    ∀ j, j + 1 < (chunksTake l).length → ((chunksTake l).getD j []).length = chunk_size := by
  intro n
  induction n with
  | zero =>
    intro l h j hj
    have : l = [] := by cases l <;> simp_all
    subst this
    simp [chunksTake_nil] at hj
  | succ n ih =>
    intro l h j hj
    by_cases hl : l = []
    · subst hl; simp [chunksTake_nil] at hj
    · have hlen : 0 < l.length := List.length_pos.mpr hl
      have hd : (l.drop chunk_size).length ≤ n := by
        simp only [List.length_drop, chunk_size] at *
        omega
      rw [chunksTake_cons l hl] at hj ⊢
      cases j with
      | zero =>
        simp only [List.length_cons] at hj
        have htail : chunksTake (l.drop chunk_size) ≠ [] := by
          intro hnil
          rw [hnil] at hj
          simp at hj
        have hdrop : l.drop chunk_size ≠ [] := by
          intro hnil
          rw [hnil, chunksTake_nil] at htail
          exact htail rfl
        have : chunk_size < l.length := by
          by_contra hc
          exact hdrop (List.drop_eq_nil_of_le (by omega))
        simp [List.length_take]
        omega
      | succ j =>
        simp only [List.length_cons] at hj
        exact ih _ hd j (by omega)

theorem chunkLoop_eq_chunksTake : ∀ (n : Nat) (content : List Nat) (i : Nat),
    content.length - i ≤ n → chunkLoop content i = chunksTake (content.drop i) := by
  intro n
  induction n with
  | zero =>
    intro content i h
    have hle : content.length ≤ i := by omega
    rw [chunkLoop]
    simp only [if_neg (by omega : ¬ i < content.length)]
    rw [List.drop_eq_nil_of_le hle, chunksTake_nil]
  | succ n ih =>
    intro content i h
    by_cases hi : i < content.length
    · rw [chunkLoop]
      simp only [if_pos hi]
      have hdrop : content.drop i ≠ [] := by
        intro hnil
        have := List.length_drop i content
        rw [hnil] at this
        simp at this
        omega
      rw [chunksTake_cons _ hdrop, List.drop_drop]
      have : content.length - (i + chunk_size) ≤ n := by
        have hcs : chunk_size = 5242880 := rfl
        omega
      rw [ih content (i + chunk_size) this]
    · rw [chunkLoop]
      simp only [if_neg hi]
      rw [List.drop_eq_nil_of_le (by omega), chunksTake_nil]

theorem chunks_eq_chunksTake (content : List Nat) : chunks content = chunksTake content := by
  rw [chunks, chunkLoop_eq_chunksTake content.length content 0 (by omega)]
  simp

/-- C1: partitioning a file of size S with the 5 MiB chunk size of
`upload_to_tiktok` yields exactly ceil(S/C) chunks; every chunk except the
last has length exactly C; the chunks concatenate back to the file content,
so their lengths sum to S. -/
theorem chunk_partition_correct (content : List Nat) :
    (chunks content).length = (content.length + chunk_size - 1) / chunk_size
    ∧ (∀ j, j + 1 < (chunks content).length → ((chunks content).getD j []).length = chunk_size)
    ∧ (chunks content).flatten = content
    ∧ ((chunks content).map List.length).sum = content.length := by
  rw [chunks_eq_chunksTake]
  refine ⟨chunksTake_length content.length content (by omega), ?_, ?_, ?_⟩
  · exact chunksTake_mid content.length content (by omega)
  · exact chunksTake_flatten content.length content (by omega)
  · rw [← List.length_flatten, chunksTake_flatten content.length content (by omega)]

end TiktokBot

namespace TiktokBot

theorem uploadChunksGo_success_crcs (crc : List Nat → Nat) :
    ∀ (chunkList : List (List Nat)) (envs : List (List AttemptResult)),
    (uploadChunksGo crc chunkList envs).result = .success →
    (uploadChunksGo crc chunkList envs).crcs = chunkList.map crc := by
  intro chunkList
  induction chunkList with
  | nil => intro envs _; simp [uploadChunksGo]
  | cons chunk rest ih =>
    intro envs h
    rw [uploadChunksGo] at h ⊢
    cases hres : (chunkRetryLoop 0 (envs.headD [])).result <;> simp only [hres] at h ⊢
    · simp only [List.map_cons, List.cons.injEq, true_and]
      exact ih envs.tail h
    · exact absurd h (by simp)
    · exact absurd h (by simp)
    · exact absurd h (by simp)

theorem finishManifest_entries (crcs : List Nat) :
    (List.range crcs.length).map (fun i => toString (i + 1) ++ ":" ++ toString (crcs.getD i 0))
      = ((List.range' 1 crcs.length).zip crcs).map (fun p => toString p.1 ++ ":" ++ toString p.2) := by
  apply List.ext_getElem
  · simp [List.length_zip]
  · intro i h1 h2
    simp only [List.length_map, List.length_range] at h1
    rw [List.getElem_map, List.getElem_map, List.getElem_zip, List.getElem_range,
      List.getElem_range', List.getD_eq_getElem crcs 0 h1]
    simp [Nat.add_comm]

/-- C2: in a run where all N chunks upload successfully, the crc list is the
chunk CRCs in upload order, and the finalize manifest of `upload_video`
(line 146) is exactly the pairs `i:crc_i` for the indices 1..N — in
ascending order with no gaps or duplicates, paired positionally with the
crc list and joined by single commas. -/
theorem finish_manifest_correct (crc : List Nat → Nat) (envs : List (List AttemptResult))
    (chunkList : List (List Nat))
    (h : (uploadChunks crc envs chunkList).result = .success) :
    (uploadChunks crc envs chunkList).crcs = chunkList.map crc
    ∧ finishManifest ((uploadChunks crc envs chunkList).crcs) =
        String.intercalate ","
          (((List.range' 1 (chunkList.map crc).length).zip (chunkList.map crc)).map
            (fun p => toString p.1 ++ ":" ++ toString p.2)) := by
  have hc : (uploadChunks crc envs chunkList).crcs = chunkList.map crc :=
    uploadChunksGo_success_crcs crc chunkList envs h
  refine ⟨hc, ?_⟩
  rw [hc, finishManifest, finishManifest_entries]

/-- Witness for C2 at a concrete two-chunk success run. -/
theorem finish_manifest_correct_witness :
    (uploadChunks (fun l : List Nat => l.length)
      [[AttemptResult.status 200], [AttemptResult.status 200]] [[9], [8, 7]]).crcs = [1, 2] := by
  have h := (finish_manifest_correct (fun l : List Nat => l.length)
    [[.status 200], [.status 200]] [[9], [8, 7]] (by decide)).1
  rw [h]
  decide

end TiktokBot

namespace TiktokBot

theorem entry_snd_ret {cookies : List Cookie} {title : List Char} {st vt : Int} {b : Bool}
    (h : uploadVideoPrecheck cookies title st vt = .ret b) :
    (uploadVideoEntry cookies title st vt).2 = 0 := by
  unfold uploadVideoEntry
  rw [h]

theorem entry_snd_exit {cookies : List Cookie} {title : List Char} {st vt : Int} {n : Nat}
    (h : uploadVideoPrecheck cookies title st vt = .exit n) :
    (uploadVideoEntry cookies title st vt).2 = 0 := by
  unfold uploadVideoEntry
  rw [h]

/-- C3 counterexample: with a valid session cookie and the nonzero
out-of-range offset 100, `upload_video` returns `False` (the rejection
branch of lines 76-78) — it does not coerce the offset to 0 and proceed as
an immediate post. -/
theorem schedule_out_of_range_rejected_cex :
    uploadVideoPrecheck [⟨"sessionid".toList, ['X']⟩] [] 100 0 = PrecheckResult.ret false := by
  decide

/-- C3 (amended): for every nonzero schedule offset outside [900, 864000],
`upload_video` rejects the job — it returns `False` before creating the HTTP
session, so no schedule field is attached and no network call is made; the
coerce-to-0 path of the second, defensive check (lines 280-284) is
unreachable for such offsets. -/
theorem schedule_out_of_range_rejected (cookies : List Cookie) (title : List Char)
    (schedule_time visibility_type : Int) (sid : List Char)
    (h1 : findCookieValue cookies ("sessionid".toList) = some sid) (h2 : sid ≠ [])
    (h3 : schedule_time ≠ 0) (h4 : schedule_time > 864000 ∨ schedule_time < 900) :
    uploadVideoPrecheck cookies title schedule_time visibility_type = .ret false
    ∧ (uploadVideoEntry cookies title schedule_time visibility_type).2 = 0 := by
  have hpre : uploadVideoPrecheck cookies title schedule_time visibility_type = .ret false := by
    simp only [uploadVideoPrecheck, h1]
    rw [if_neg h2, if_pos ⟨h3, h4⟩]
  exact ⟨hpre, entry_snd_ret hpre⟩

/-- Witness for C3 (amended) at offset 1000000 (more than 10 days). -/
theorem schedule_out_of_range_rejected_witness :
    uploadVideoPrecheck [⟨"sessionid".toList, ['X']⟩] [] 1000000 0 = PrecheckResult.ret false
    ∧ (uploadVideoEntry [⟨"sessionid".toList, ['X']⟩] [] 1000000 0).2 = 0 :=
  schedule_out_of_range_rejected _ _ _ _ ['X'] (by decide) (by decide) (by decide)
    (Or.inl (by decide))

/-- C5 counterexample: with an empty cookie list, `upload_video` ends in
`sys.exit(1)` (lines 65-67), not in a returned `False` — the failure is a
process exit, not a boolean result. -/
theorem missing_sessionid_cex :
    uploadVideoPrecheck [] [] 0 0 = PrecheckResult.exit 1
    ∧ uploadVideoPrecheck [] [] 0 0 ≠ PrecheckResult.ret false := by
  decide

/-- C5 (amended): when the loaded cookie list has no cookie named
`sessionid`, `upload_video` aborts before issuing any network call, but by
terminating the process with `sys.exit(1)` — the caller does not receive a
returned boolean. -/
theorem missing_sessionid_exits (cookies : List Cookie) (title : List Char)
    (schedule_time visibility_type : Int)
    (h : ∀ c ∈ cookies, c.name ≠ "sessionid".toList) :
    uploadVideoPrecheck cookies title schedule_time visibility_type = .exit 1
    ∧ (uploadVideoEntry cookies title schedule_time visibility_type).2 = 0 := by
  have hfind : findCookieValue cookies ("sessionid".toList) = none := by
    unfold findCookieValue
    rw [List.find?_eq_none.mpr]
    · rfl
    · intro c hc
      simpa using h c hc
  have hpre : uploadVideoPrecheck cookies title schedule_time visibility_type = .exit 1 := by
    simp only [uploadVideoPrecheck, hfind]
  exact ⟨hpre, entry_snd_exit hpre⟩

/-- Witness for C5 (amended): a cookie list holding only `tt-target-idc`. -/
theorem missing_sessionid_exits_witness :
    uploadVideoPrecheck [⟨"tt-target-idc".toList, ['u']⟩] [] 0 0 = PrecheckResult.exit 1
    ∧ (uploadVideoEntry [⟨"tt-target-idc".toList, ['u']⟩] [] 0 0).2 = 0 :=
  missing_sessionid_exits _ _ _ _ (by decide)

/-- C10 counterexample: a call with nonzero schedule offset 1000 and
`visibility_type == 1` but no `sessionid` cookie exits the process at line 67
instead of returning `False`, so the claim's universal statement fails. -/
theorem scheduled_private_cex :
    uploadVideoPrecheck [] [] 1000 1 = PrecheckResult.exit 1
    ∧ uploadVideoPrecheck [] [] 1000 1 ≠ PrecheckResult.ret false := by
  decide

/-- C10 (amended): provided the loaded cookies contain a `sessionid` with a
nonempty value (so the exit gate of lines 65-67 passes), every call with a
nonzero schedule offset and `visibility_type == 1` returns `False` before
the HTTP session is created, hence before any network call — whichever of
the three validation branches fires. -/
theorem scheduled_private_rejected (cookies : List Cookie) (title : List Char)
    (schedule_time : Int) (sid : List Char)
    (h1 : findCookieValue cookies ("sessionid".toList) = some sid) (h2 : sid ≠ [])
    (h3 : schedule_time ≠ 0) :
    uploadVideoPrecheck cookies title schedule_time 1 = .ret false
    ∧ (uploadVideoEntry cookies title schedule_time 1).2 = 0 := by
  have hpre : uploadVideoPrecheck cookies title schedule_time 1 = .ret false := by
    simp only [uploadVideoPrecheck, h1]
    rw [if_neg h2]
    split_ifs with a b c
    · rfl
    · rfl
    · rfl
    · exact absurd ⟨h3, by trivial⟩ c
  exact ⟨hpre, entry_snd_ret hpre⟩

/-- Witness for C10 (amended) at an in-range offset (3600 seconds). -/
theorem scheduled_private_rejected_witness :
    uploadVideoPrecheck [⟨"sessionid".toList, ['X']⟩] [] 3600 1 = PrecheckResult.ret false
    ∧ (uploadVideoEntry [⟨"sessionid".toList, ['X']⟩] [] 3600 1).2 = 0 :=
  scheduled_private_rejected _ _ _ ['X'] (by decide) (by decide) (by decide)

end TiktokBot

namespace TiktokBot

theorem pyTakeTo_length (s : List Char) (v : Int) :
    (pyTakeTo s v).length
      = min s.length (if v < 0 then ((s.length : Int) + v).toNat else v.toNat) := by
  unfold pyTakeTo
  split_ifs with h <;> simp [List.length_take, Nat.min_comm]

theorem mvt_fallthrough (t d k : List Char)
    (hfull : t.length + 1 + d.length + 1 + k.length > 2200)
    (hk : ¬(k.length > (t.length + 1 + d.length + 1 + k.length - 2200) + 50))
    (hd : ¬(d.length > (t.length + 1 + d.length + 1 + k.length - 2200) + 50))
    (ht : ¬(t.length > (t.length + 1 + d.length + 1 + k.length - 2200) + 20)) :
    musicVideoTruncate t d k = (t, [], []) := by
  unfold musicVideoTruncate
  rw [if_pos hfull, if_neg hk, if_neg hd, if_neg ht]

/-- C4 counterexample: for title of 3000 characters, empty description and
2200 characters of keywords, the combined text (5202 characters) exceeds
2200, yet `generate_music_video`'s truncation leaves it at 3002 characters:
keywords and description are emptied, but the title fails its
`len(title) > excess + 20` guard and is kept whole, so the final combined
text still exceeds 2200. -/
theorem truncation_cap_cex :
    ((List.replicate 3000 'a').length + 1 + ([] : List Char).length + 1
      + (List.replicate 2200 'b').length > 2200)
    ∧ ((musicVideoTruncate (List.replicate 3000 'a') [] (List.replicate 2200 'b')).1.length + 1
      + (musicVideoTruncate (List.replicate 3000 'a') [] (List.replicate 2200 'b')).2.1.length + 1
      + (musicVideoTruncate (List.replicate 3000 'a') [] (List.replicate 2200 'b')).2.2.length
        > 2200) := by
  have e := mvt_fallthrough (List.replicate 3000 'a') [] (List.replicate 2200 'b')
    (by simp only [List.length_replicate, List.length_nil]; omega)
    (by simp only [List.length_replicate, List.length_nil]; omega)
    (by simp only [List.length_replicate, List.length_nil]; omega)
    (by simp only [List.length_replicate, List.length_nil]; omega)
  constructor
  · simp only [List.length_replicate, List.length_nil]
    omega
  · rw [e]
    simp only [List.length_replicate, List.length_nil]
    omega

/-- C4 (amended): for combined text over 2200 characters, the truncation of
`generate_music_video` runs keywords first, then description, then title
(never reordered, with fixed buffers of 50, 50 and 20 characters): the
description changes only once keywords are emptied, and the title changes
only once both keywords and description are emptied; when keywords alone can
absorb the excess, title and description are untouched. The final combined
length is at most 2200 provided the title is at most 2198 characters — when
the title is longer and the other fields cannot absorb the excess, the
fall-through branch leaves the text over budget (see the counterexample). -/
theorem truncation_cap_amended (title description keywords : List Char)
    (h1 : title.length + 1 + description.length + 1 + keywords.length > 2200)
    (h2 : title.length ≤ 2198) :
    ((musicVideoTruncate title description keywords).1.length + 1
      + (musicVideoTruncate title description keywords).2.1.length + 1
      + (musicVideoTruncate title description keywords).2.2.length ≤ 2200)
    ∧ ((musicVideoTruncate title description keywords).2.1 ≠ description →
        (musicVideoTruncate title description keywords).2.2 = [])
    ∧ ((musicVideoTruncate title description keywords).1 ≠ title →
        (musicVideoTruncate title description keywords).2.2 = []
        ∧ (musicVideoTruncate title description keywords).2.1 = [])
    ∧ (keywords.length
        > (title.length + 1 + description.length + 1 + keywords.length - 2200) + 50 →
        (musicVideoTruncate title description keywords).1 = title
        ∧ (musicVideoTruncate title description keywords).2.1 = description) := by
  unfold musicVideoTruncate
  rw [if_pos h1]
  split_ifs with b1 b2 b3
  · refine ⟨?_, ?_, ?_, ?_⟩
    · simp only [pyTakeTo_length]
      rw [if_neg (by omega)]
      omega
    · intro hne; exact absurd rfl hne
    · intro hne; exact absurd rfl hne
    · intro _; exact ⟨rfl, rfl⟩
  · refine ⟨?_, ?_, ?_, ?_⟩
    · simp only [pyTakeTo_length, List.length_nil]
      rw [if_neg (by omega)]
      omega
    · intro _; rfl
    · intro hne; exact absurd rfl hne
    · intro h; omega
  · refine ⟨?_, ?_, ?_, ?_⟩
    · simp only [pyTakeTo_length, List.length_nil]
      rw [if_neg (by omega)]
      omega
    · intro _; rfl
    · intro _; exact ⟨rfl, rfl⟩
    · intro h; omega
  · refine ⟨?_, ?_, ?_, ?_⟩
    · simp only [List.length_nil]
      omega
    · intro _; rfl
    · intro _; exact ⟨rfl, rfl⟩
    · intro h; omega

/-- Witness for C4 (amended): 10-character title, empty description,
2300 characters of keywords — the truncation brings the combined text
within 2200. -/
theorem truncation_cap_witness :
    (musicVideoTruncate (List.replicate 10 'a') [] (List.replicate 2300 'b')).1.length + 1
      + (musicVideoTruncate (List.replicate 10 'a') [] (List.replicate 2300 'b')).2.1.length + 1
      + (musicVideoTruncate (List.replicate 10 'a') [] (List.replicate 2300 'b')).2.2.length
        ≤ 2200 :=
  (truncation_cap_amended _ _ _
    (by simp only [List.length_replicate, List.length_nil]; omega)
    (by simp only [List.length_replicate]; omega)).1

end TiktokBot

namespace TiktokBot

@[simp] theorem chunkLoopOut_result (r : ChunkResult) (a : Nat) (sl : List Nat) :
    (⟨r, a, sl⟩ : ChunkLoopOut).result = r := rfl

@[simp] theorem chunkLoopOut_attempts (r : ChunkResult) (a : Nat) (sl : List Nat) :
    (⟨r, a, sl⟩ : ChunkLoopOut).attempts = a := rfl

@[simp] theorem chunkLoopOut_sleeps (r : ChunkResult) (a : Nat) (sl : List Nat) :
    (⟨r, a, sl⟩ : ChunkLoopOut).sleeps = sl := rfl

theorem chunkRetry_attempts_le : ∀ (env : List AttemptResult) (rc : Nat),
    (chunkRetryLoop rc env).attempts ≤ 5 - rc := by
  intro env
  induction env with
  | nil =>
    intro rc
    simp only [chunkRetryLoop]
    split_ifs <;> simp
  | cons o rest ih =>
    intro rc
    cases o with
    | status code =>
      simp only [chunkRetryLoop]
      split_ifs with h5 h200 h4 <;> simp only [chunkLoopOut_attempts] <;> try omega
      have := ih (rc + 1)
      omega
    | connErr =>
      simp only [chunkRetryLoop]
      split_ifs with h5 h4 <;> simp only [chunkLoopOut_attempts] <;> try omega
      have := ih (rc + 1)
      omega
    | reqErr =>
      simp only [chunkRetryLoop]
      split_ifs with h5 h4 <;> simp only [chunkLoopOut_attempts] <;> try omega
      have := ih (rc + 1)
      omega

theorem chunkRetry_fail_attempts : ∀ (env : List AttemptResult) (rc : Nat), rc < 5 →
    ((chunkRetryLoop rc env).result = .failReturn ∨ (chunkRetryLoop rc env).result = .failRaise) →
    (chunkRetryLoop rc env).attempts = 5 - rc := by
  intro env
  induction env with
  | nil =>
    intro rc h5 hr
    simp only [chunkRetryLoop, if_pos h5] at hr ⊢
    rcases hr with hr | hr <;> simp at hr
  | cons o rest ih =>
    intro rc h5 hr
    cases o with
    | status code =>
      simp only [chunkRetryLoop, if_pos h5] at hr ⊢
      split_ifs at hr ⊢ with h200 h4
      · simp at hr
      · simp only [chunkLoopOut_result] at hr
        simp only [chunkLoopOut_attempts]
        have := ih (rc + 1) (by omega) hr
        omega
      · simp only [chunkLoopOut_attempts]
        omega
    | connErr =>
      simp only [chunkRetryLoop, if_pos h5] at hr ⊢
      split_ifs at hr ⊢ with h4
      · simp only [chunkLoopOut_result] at hr
        simp only [chunkLoopOut_attempts]
        have := ih (rc + 1) (by omega) hr
        omega
      · simp only [chunkLoopOut_attempts]
        omega
    | reqErr =>
      simp only [chunkRetryLoop, if_pos h5] at hr ⊢
      split_ifs at hr ⊢ with h4
      · simp only [chunkLoopOut_result] at hr
        simp only [chunkLoopOut_attempts]
        have := ih (rc + 1) (by omega) hr
        omega
      · simp only [chunkLoopOut_attempts]
        omega

end TiktokBot

namespace TiktokBot

theorem backoff_cons (r' : Nat) (a : Nat) (ha : 1 ≤ a) :
    min (2 ^ (r' + 1)) 30
        :: (List.range (a - 1)).map (fun j => min (2 ^ (r' + 1 + 1 + j)) 30)
      = (List.range (a + 1 - 1)).map (fun j => min (2 ^ (r' + 1 + j)) 30) := by
  have h1 : a + 1 - 1 = (a - 1) + 1 := by omega
  rw [h1, List.range_succ_eq_map, List.map_cons, List.map_map]
  have htail : (List.range (a - 1)).map (fun j => min (2 ^ (r' + 1 + 1 + j)) 30)
      = (List.range (a - 1)).map ((fun j => min (2 ^ (r' + 1 + j)) 30) ∘ Nat.succ) := by
    apply List.map_congr_left
    intro j _
    simp only [Function.comp_apply]
    have he : r' + 1 + 1 + j = r' + 1 + (j + 1) := by omega
    rw [he]
  rw [htail]

theorem chunkRetry_sleeps : ∀ (env : List AttemptResult) (rc : Nat), rc < 5 →
    (chunkRetryLoop rc env).result ≠ .ranDry →
    (chunkRetryLoop rc env).sleeps
      = (List.range ((chunkRetryLoop rc env).attempts - 1)).map
          (fun j => min (2 ^ (rc + 1 + j)) 30)
    ∧ 1 ≤ (chunkRetryLoop rc env).attempts := by
  intro env
  induction env with
  | nil =>
    intro rc h5 hr
    simp only [chunkRetryLoop, if_pos h5] at hr
    simp at hr
  | cons o rest ih =>
    intro rc h5 hr
    cases o with
    | status code =>
      simp only [chunkRetryLoop, if_pos h5] at hr ⊢
      split_ifs at hr ⊢ with h200 h4
      · simp
      · simp only [chunkLoopOut_result] at hr
        simp only [chunkLoopOut_sleeps, chunkLoopOut_attempts]
        obtain ⟨hs, ha⟩ := ih (rc + 1) (by omega) hr
        refine ⟨?_, by omega⟩
        rw [hs]
        exact backoff_cons rc _ ha
      · simp
    | connErr =>
      simp only [chunkRetryLoop, if_pos h5] at hr ⊢
      split_ifs at hr ⊢ with h4
      · simp only [chunkLoopOut_result] at hr
        simp only [chunkLoopOut_sleeps, chunkLoopOut_attempts]
        obtain ⟨hs, ha⟩ := ih (rc + 1) (by omega) hr
        refine ⟨?_, by omega⟩
        rw [hs]
        exact backoff_cons rc _ ha
      · simp
    | reqErr =>
      simp only [chunkRetryLoop, if_pos h5] at hr ⊢
      split_ifs at hr ⊢ with h4
      · simp only [chunkLoopOut_result] at hr
        simp only [chunkLoopOut_sleeps, chunkLoopOut_attempts]
        obtain ⟨hs, ha⟩ := ih (rc + 1) (by omega) hr
        refine ⟨?_, by omega⟩
        rw [hs]
        exact backoff_cons rc _ ha
      · simp

/-- C6: each chunk is attempted at most 5 times; exhausting a chunk's
attempts (result `failReturn` from a non-200 response or `failRaise` from a
re-raised transport error) means exactly 5 attempts were made on that same
chunk; the waits between consecutive attempts are `min(2 ** k, 30)` for
k = 1, 2, ... (exponential backoff, base 2, capped at 30 seconds); and when
any chunk fails, the whole job is a failure and the finalize
(`phase=finish`) request is never issued. -/
theorem chunk_retry_policy (env : List AttemptResult) (crc : List Nat → Nat)
    (envs : List (List AttemptResult)) (chunkList : List (List Nat)) :
    ((chunkRetryLoop 0 env).attempts ≤ 5)
    ∧ ((chunkRetryLoop 0 env).result = .failReturn ∨ (chunkRetryLoop 0 env).result = .failRaise →
        (chunkRetryLoop 0 env).attempts = 5)
    ∧ ((chunkRetryLoop 0 env).result ≠ .ranDry →
        (chunkRetryLoop 0 env).sleeps
          = (List.range ((chunkRetryLoop 0 env).attempts - 1)).map (fun j => min (2 ^ (j + 1)) 30))
    ∧ ((uploadChunks crc envs chunkList).result = .failReturn
        ∨ (uploadChunks crc envs chunkList).result = .failRaise →
        (uploadJob crc envs chunkList).1 ≠ .ok ∧ (uploadJob crc envs chunkList).2 = false) := by
  refine ⟨?_, ?_, ?_, ?_⟩
  · have := chunkRetry_attempts_le env 0
    omega
  · intro hfail
    have := chunkRetry_fail_attempts env 0 (by omega) hfail
    omega
  · intro hr
    obtain ⟨hs, _⟩ := chunkRetry_sleeps env 0 (by omega) hr
    rw [hs]
    apply List.map_congr_left
    intro j _
    have he : 0 + 1 + j = j + 1 := by omega
    rw [he]
  · intro hfail
    unfold uploadJob
    rcases hfail with hf | hf <;> rw [hf] <;> exact ⟨by decide, by decide⟩

end TiktokBot

namespace TiktokBot

@[simp] theorem pubOut_result (r : PubResult) (a : Nat) (sl : List Nat)
    (sg p : List (List Char)) : (⟨r, a, sl, sg, p⟩ : PubOut).result = r := rfl

@[simp] theorem pubOut_attempts (r : PubResult) (a : Nat) (sl : List Nat)
    (sg p : List (List Char)) : (⟨r, a, sl, sg, p⟩ : PubOut).attempts = a := rfl

@[simp] theorem pubOut_sleeps (r : PubResult) (a : Nat) (sl : List Nat)
    (sg p : List (List Char)) : (⟨r, a, sl, sg, p⟩ : PubOut).sleeps = sl := rfl

@[simp] theorem pubOut_sigCalls (r : PubResult) (a : Nat) (sl : List Nat)
    (sg p : List (List Char)) : (⟨r, a, sl, sg, p⟩ : PubOut).sigCalls = sg := rfl

@[simp] theorem pubOut_postCalls (r : PubResult) (a : Nat) (sl : List Nat)
    (sg p : List (List Char)) : (⟨r, a, sl, sg, p⟩ : PubOut).postCalls = p := rfl

@[simp] theorem pubCont_result (sigs posts : List (List Char)) (out : PubOut) :
    (pubCont sigs posts out).result = out.result := rfl

@[simp] theorem pubCont_attempts (sigs posts : List (List Char)) (out : PubOut) :
    (pubCont sigs posts out).attempts = out.attempts + 1 := rfl

@[simp] theorem pubCont_sleeps (sigs posts : List (List Char)) (out : PubOut) :
    (pubCont sigs posts out).sleeps = 2 :: out.sleeps := rfl

@[simp] theorem pubCont_sigCalls (sigs posts : List (List Char)) (out : PubOut) :
    (pubCont sigs posts out).sigCalls = sigs ++ out.sigCalls := rfl

@[simp] theorem pubCont_postCalls (sigs posts : List (List Char)) (out : PubOut) :
    (pubCont sigs posts out).postCalls = posts ++ out.postCalls := rfl

theorem replicate_cons_two (a : Nat) (ha : 1 ≤ a) :
    2 :: List.replicate (a - 1) 2 = List.replicate (a + 1 - 1) 2 := by
  have h : a + 1 - 1 = (a - 1) + 1 := by omega
  rw [h, List.replicate_succ]

theorem pub_attempts_le : ∀ (env : List PubOutcome) (attempt : Nat) (s : PubState),
    (publishLoopGo attempt s env).attempts ≤ 3 - attempt := by
  intro env
  induction env with
  | nil =>
    intro attempt s
    simp only [publishLoopGo]
    split_ifs <;> simp
  | cons o rest ih =>
    intro attempt s
    cases o with
    | msTokenMissing =>
      simp only [publishLoopGo]
      split_ifs <;>
        first
          | (simp only [pubCont_attempts]
             exact le_trans (Nat.succ_le_succ (ih _ _)) (by omega))
          | (simp only [pubOut_attempts]; omega)
          | simp
    | withToken tok r =>
      cases r <;>
        · simp only [publishLoopGo]
          split_ifs <;>
            first
              | (simp only [pubCont_attempts]
                 exact le_trans (Nat.succ_le_succ (ih _ _)) (by omega))
              | (simp only [pubOut_attempts]; omega)
              | simp

theorem pub_sleeps : ∀ (env : List PubOutcome) (attempt : Nat) (s : PubState), attempt < 3 →
    (publishLoopGo attempt s env).result ≠ .ranDry →
    (publishLoopGo attempt s env).sleeps
      = List.replicate ((publishLoopGo attempt s env).attempts - 1) 2
    ∧ 1 ≤ (publishLoopGo attempt s env).attempts := by
  intro env
  induction env with
  | nil =>
    intro attempt s h3 hr
    simp only [publishLoopGo, if_pos h3] at hr
    simp at hr
  | cons o rest ih =>
    intro attempt s h3 hr
    cases o with
    | msTokenMissing =>
      simp only [publishLoopGo, if_pos h3] at hr ⊢
      split_ifs at hr ⊢ with h2
      · simp only [pubCont_result] at hr
        simp only [pubCont_sleeps, pubCont_attempts]
        obtain ⟨hs, ha⟩ := ih (attempt + 1) _ (by omega) hr
        rw [hs]
        exact ⟨replicate_cons_two _ ha, by omega⟩
      · simp
    | withToken tok r =>
      cases r <;>
        · simp only [publishLoopGo, if_pos h3] at hr ⊢
          split_ifs at hr ⊢ <;>
            first
              | (simp only [pubCont_result] at hr
                 simp only [pubCont_sleeps, pubCont_attempts]
                 obtain ⟨hs, ha⟩ := ih (attempt + 1) _ (by omega) hr
                 rw [hs]
                 exact ⟨replicate_cons_two _ ha, by omega⟩)
              | simp

theorem pub_allfail : ∀ (env : List PubOutcome) (attempt : Nat) (s : PubState),
    env.all isPubFailure = true → 3 ≤ attempt + env.length → attempt < 3 →
    (publishLoopGo attempt s env).result = .returnedFalse := by
  intro env
  induction env with
  | nil =>
    intro attempt s _ hlen h3
    simp at hlen
    omega
  | cons o rest ih =>
    intro attempt s hall hlen h3
    simp only [List.all_cons, Bool.and_eq_true] at hall
    obtain ⟨ho, hrest⟩ := hall
    cases o with
    | msTokenMissing =>
      simp only [publishLoopGo, if_pos h3]
      split_ifs with h2
      · simp only [pubCont_result]
        exact ih (attempt + 1) _ hrest (by simp at hlen ⊢; omega) (by omega)
      · simp
    | withToken tok r =>
      cases r with
      | status code =>
        simp only [publishLoopGo, if_pos h3]
        split_ifs with h0 <;>
          first
            | (exfalso
               subst h0
               simp [isPubFailure] at ho)
            | (simp only [pubCont_result]
               exact ih (attempt + 1) _ hrest (by simp at hlen ⊢; omega) (by omega))
            | simp
      | sigFail =>
        simp only [publishLoopGo, if_pos h3]
        split_ifs <;>
          first
            | (simp only [pubCont_result]
               exact ih (attempt + 1) _ hrest (by simp at hlen ⊢; omega) (by omega))
            | simp
      | sigParseFail =>
        simp only [publishLoopGo, if_pos h3]
        split_ifs <;>
          first
            | (simp only [pubCont_result]
               exact ih (attempt + 1) _ hrest (by simp at hlen ⊢; omega) (by omega))
            | simp
      | transportFail =>
        simp only [publishLoopGo, if_pos h3]
        split_ifs <;>
          first
            | (simp only [pubCont_result]
               exact ih (attempt + 1) _ hrest (by simp at hlen ⊢; omega) (by omega))
            | simp
      | respParseFail =>
        simp only [publishLoopGo, if_pos h3]
        split_ifs <;>
          first
            | (simp only [pubCont_result]
               exact ih (attempt + 1) _ hrest (by simp at hlen ⊢; omega) (by omega))
            | simp

end TiktokBot

namespace TiktokBot

/-- C8: the publishing loop performs at most 3 sequential attempts; every
pause between consecutive attempts — in particular after a non-zero
`status_code` other than 5, a transport failure (`assertSuccess` false) or a
response-parse failure — is the fixed `time.sleep(2)`, so the sleep trace is
exactly `attempts - 1` many 2-second waits; and when the environment delivers
3 failing attempts, `upload_video` returns a failure result instead of
retrying further. -/
theorem publish_attempt_budget (s : PubState) (env : List PubOutcome) :
    ((publishLoop s env).attempts ≤ 3)
    ∧ ((publishLoop s env).result ≠ .ranDry →
        (publishLoop s env).sleeps = List.replicate ((publishLoop s env).attempts - 1) 2)
    ∧ (env.all isPubFailure = true ∧ 3 ≤ env.length →
        (publishLoop s env).result = .returnedFalse) := by
  refine ⟨?_, ?_, ?_⟩
  · show (publishLoopGo 0 s env).attempts ≤ 3
    have := pub_attempts_le env 0 s
    omega
  · intro hr
    exact (pub_sleeps env 0 s (by omega) hr).1
  · intro ⟨hall, hlen⟩
    exact pub_allfail env 0 s hall (by omega) (by omega)

theorem takeWhile_stops (p : Char → Bool) (l2 : List Char) :
    ∀ (l1 : List Char), (∃ x ∈ l1, p x = false) →
    (l1 ++ l2).takeWhile p = l1.takeWhile p := by
  intro l1
  induction l1 with
  | nil =>
    intro h
    simp at h
  | cons a t ih =>
    intro h
    rw [List.cons_append, List.takeWhile_cons, List.takeWhile_cons]
    cases hpa : p a
    · rfl
    · obtain ⟨x, hx, hpx⟩ := h
      rcases List.mem_cons.mp hx with rfl | hxt
      · rw [hpa] at hpx
        cases hpx
      · rw [ih ⟨x, hxt, hpx⟩]

theorem urlPath_sig_url (tok : List Char) :
    urlPath (sig_url tok) = "/api/v1/web/project/post/".toList := by
  unfold urlPath sig_url
  have hsplit : ("https://www.tiktok.com/api/v1/web/project/post/?app_name=tiktok_web&channel=tiktok_web&device_platform=web&aid=1988&msToken=").toList
      = ("https://www.tiktok.com").toList
        ++ ("/api/v1/web/project/post/?app_name=tiktok_web&channel=tiktok_web&device_platform=web&aid=1988&msToken=").toList := by
    decide
  rw [hsplit, List.append_assoc]
  rw [show (22 : Nat) = ("https://www.tiktok.com").toList.length from by decide]
  rw [List.drop_left]
  rw [takeWhile_stops _ _ _ ⟨'?', by decide, by decide⟩]
  decide

theorem urlPath_post_url :
    urlPath post_url = "/tiktok/web/project/post/v1/".toList := by
  decide

theorem pub_sigCalls_shape : ∀ (env : List PubOutcome) (attempt : Nat) (s : PubState)
    (u : List Char), u ∈ (publishLoopGo attempt s env).sigCalls → ∃ tok, u = sig_url tok := by
  intro env
  induction env with
  | nil =>
    intro attempt s u hu
    simp only [publishLoopGo] at hu
    split_ifs at hu <;> simp at hu
  | cons o rest ih =>
    intro attempt s u hu
    cases o with
    | msTokenMissing =>
      simp only [publishLoopGo] at hu
      split_ifs at hu <;>
        first
          | (simp only [pubCont_sigCalls, List.nil_append] at hu
             exact ih _ _ _ hu)
          | simp at hu
    | withToken tok r =>
      cases r <;>
        · simp only [publishLoopGo] at hu
          split_ifs at hu <;>
            first
              | (simp only [pubCont_sigCalls, List.cons_append, List.nil_append,
                  List.mem_cons] at hu
                 rcases hu with rfl | hu
                 · exact ⟨tok, rfl⟩
                 · exact ih _ _ _ hu)
              | (simp only [pubOut_sigCalls, List.mem_singleton] at hu
                 exact ⟨tok, hu⟩)
              | simp at hu

theorem pub_postCalls_shape : ∀ (env : List PubOutcome) (attempt : Nat) (s : PubState)
    (u : List Char), u ∈ (publishLoopGo attempt s env).postCalls → u = post_url := by
  intro env
  induction env with
  | nil =>
    intro attempt s u hu
    simp only [publishLoopGo] at hu
    split_ifs at hu <;> simp at hu
  | cons o rest ih =>
    intro attempt s u hu
    cases o with
    | msTokenMissing =>
      simp only [publishLoopGo] at hu
      split_ifs at hu <;>
        first
          | (simp only [pubCont_postCalls, List.nil_append] at hu
             exact ih _ _ _ hu)
          | simp at hu
    | withToken tok r =>
      cases r <;>
        · simp only [publishLoopGo] at hu
          split_ifs at hu <;>
            first
              | (simp only [pubCont_postCalls, List.cons_append, List.nil_append,
                  List.mem_cons] at hu
                 rcases hu with rfl | hu
                 · rfl
                 · exact ih _ _ _ hu)
              | (simp only [pubCont_postCalls, List.nil_append] at hu
                 exact ih _ _ _ hu)
              | (simp only [pubOut_postCalls, List.mem_singleton] at hu
                 exact hu)
              | simp at hu

/-- C9: on every publish attempt, the URL handed to the signature oracle has
path `/api/v1/web/project/post/` while every publish POST goes to
`/tiktok/web/project/post/v1/` — the two paths differ, and the asymmetry
holds for every attempt of every run. -/
theorem signature_url_asymmetry (s : PubState) (env : List PubOutcome) :
    (∀ u ∈ (publishLoop s env).sigCalls, urlPath u = "/api/v1/web/project/post/".toList)
    ∧ (∀ u ∈ (publishLoop s env).postCalls, urlPath u = "/tiktok/web/project/post/v1/".toList)
    ∧ "/api/v1/web/project/post/".toList ≠ "/tiktok/web/project/post/v1/".toList := by
  refine ⟨?_, ?_, by decide⟩
  · intro u hu
    obtain ⟨tok, rfl⟩ := pub_sigCalls_shape env 0 s u hu
    exact urlPath_sig_url tok
  · intro u hu
    rw [pub_postCalls_shape env 0 s u hu]
    exact urlPath_post_url

end TiktokBot

namespace TiktokBot

theorem status5_text_precedence (s : PubState) (tok1 tok2 : List Char)
    (rest : List PubOutcome)
    (hgt : 2200 < s.title.length + 1 + s.description.length + 1 + s.keywords.length)
    (hatt : s.scheduleAttached = true) (hact : s.actuallyScheduled = true) :
    (publishLoop s
        (.withToken tok1 (.status 5) :: .withToken tok2 (.status 0) :: rest)).result
      = .published true := by
  norm_num [publishLoop, publishLoopGo, pubCont, hatt, hact, hgt]

/-- C7 counterexample: first attempt returns `status_code == 5` with a
schedule attached, but the combined text is over 2200 characters, so the
truncation repair fires and `continue`s before the schedule-stripping block
is reached; the schedule is then never stripped (stripping only happens when
`attempt == 1`), and a second attempt returning `status_code == 0` reports
the job as Published with scheduled=true — not scheduled=false as the claim
requires. The repairs are therefore not independent. -/
theorem status5_schedule_strip_cex :
    (publishLoop ⟨[], List.replicate 2300 'a', [], true, true⟩
        [PubOutcome.withToken [] (.status 5), PubOutcome.withToken [] (.status 0)]).result
      = PubResult.published true :=
  status5_text_precedence _ _ _ _
    (by simp only [List.length_replicate, List.length_nil]; omega) rfl rfl

/-- C7 (amended): if the first publish attempt returns `status_code == 5`
while a schedule field is attached **and the combined text is within the
2200-character budget**, the orchestrator removes the schedule field, marks
the job no-longer-scheduled, sleeps 2 seconds and retries; a second attempt
returning `status_code == 0` then reports Published with scheduled=false
even though scheduling was originally requested. The two repairs are not
independent: when the text is over budget on attempt 1, the truncation
repair `continue`s first and the schedule is never stripped (see the
counterexample). -/
theorem status5_schedule_strip_amended (s : PubState) (tok1 tok2 : List Char)
    (rest : List PubOutcome)
    (hlen : s.title.length + 1 + s.description.length + 1 + s.keywords.length ≤ 2200)
    (hatt : s.scheduleAttached = true) (hact : s.actuallyScheduled = true) :
    (publishLoop s
        (.withToken tok1 (.status 5) :: .withToken tok2 (.status 0) :: rest)).result
      = .published false
    ∧ (publishLoop s
        (.withToken tok1 (.status 5) :: .withToken tok2 (.status 0) :: rest)).attempts = 2
    ∧ (publishLoop s
        (.withToken tok1 (.status 5) :: .withToken tok2 (.status 0) :: rest)).sleeps = [2] := by
  have hnot : ¬(2200 < s.title.length + 1 + s.description.length + 1 + s.keywords.length) := by
    omega
  norm_num [publishLoop, publishLoopGo, pubCont, hatt, hact, hnot]

/-- Witness for C7 (amended): a one-character title with schedule attached;
status 5 then status 0 gives Published with scheduled=false in 2 attempts. -/
theorem status5_schedule_strip_witness :
    (publishLoop ⟨['t'], [], [], true, true⟩
        [PubOutcome.withToken [] (.status 5), PubOutcome.withToken [] (.status 0)]).result
      = PubResult.published false
    ∧ (publishLoop ⟨['t'], [], [], true, true⟩
        [PubOutcome.withToken [] (.status 5), PubOutcome.withToken [] (.status 0)]).attempts = 2
    ∧ (publishLoop ⟨['t'], [], [], true, true⟩
        [PubOutcome.withToken [] (.status 5), PubOutcome.withToken [] (.status 0)]).sleeps
      = [2] :=
  status5_schedule_strip_amended ⟨['t'], [], [], true, true⟩ [] [] []
    (by decide) rfl rfl

end TiktokBot
